import Mathlib

/-!
Verification of the LCCF payment-callback core (`handlePaymentCallback` and
`calculateSign` from the repository's callback module) against its
natural-language specification.

The JavaScript source is shallowly embedded: JS runtime values that can occur
in the request body and in parsed JSON are modelled by `JVal`; the record store
(LeanCloud) is modelled as explicit lists of `Order` and `User` records, read
and conditionally updated by pure functions; `new Date()` is modelled by an
explicit `now : Nat` parameter; MD5 (from node's `crypto`, invoked by
`calculateSign`) is implemented concretely over byte lists.
-/

namespace LCCF

set_option maxRecDepth 40000

/-- Model of the JavaScript values that flow through the callback handler:
the scalar values of signature parameters and the results of `JSON.parse`.
`undef` models JavaScript `undefined` (an absent field). -/
inductive JVal where
  | str (s : String)
  | num (n : Int)
  | bool (b : Bool)
  | null
  | undef
  | obj (fields : List (String × JVal))
  | arr (elems : List JVal)

/-- Strict equality (`===`) of a JS value with a known string: true exactly
when the value is that string. -/
def JVal.eqStr : JVal → String → Bool
  | .str t, s => t == s
  | _, _ => false

/-- True for `null` and `undefined`: destructuring (`const {userId} = x`)
throws a TypeError exactly on these two values. -/
def JVal.isNullish : JVal → Bool
  | .null => true
  | .undef => true
  | _ => false

/-- Rendering of one array element for `Array.prototype.toString`: `null`
and `undefined` become the empty string, scalars render as usual. (An array
nested inside an array is not rendered recursively here: the signature
contract only carries `mapping<string,scalar>` values, so this corner never
arises on the modelled paths and none of the theorems depend on it.) -/
def jsElemStr : JVal → String
  | .str s => s
  | .num n => toString n
  | .bool b => cond b "true" "false"
  | .null => ""
  | .undef => ""
  | .obj _ => "[object Object]"
  | .arr _ => ""

/-- JS string conversion as performed by the template literal `${v}`
(ECMAScript ToString restricted to the modelled values; numbers are modelled
as integers, whose rendering agrees with JS for integral values). -/
def jsToString : JVal → String
  | .str s => s
  | .num n => toString n
  | .bool b => cond b "true" "false"
  | .null => "null"
  | .undef => "undefined"
  | .obj _ => "[object Object]"
  | .arr elems => String.intercalate "," (elems.map jsElemStr)

/-- UTF-8 encoding of one code point (node's `hash.update(str)` encodes the
string as UTF-8 before hashing). -/
def utf8EncodeCp (n : Nat) : List Nat :=
  if n < 0x80 then [n]
  else if n < 0x800 then [0xC0 + n / 64, 0x80 + n % 64]
  else if n < 0x10000 then [0xE0 + n / 4096, 0x80 + n / 64 % 64, 0x80 + n % 64]
  else [0xF0 + n / 0x40000, 0x80 + n / 4096 % 64, 0x80 + n / 64 % 64, 0x80 + n % 64]

/-- UTF-8 bytes of a string. -/
def utf8Bytes (s : String) : List Nat :=
  s.data.foldr (fun c acc => utf8EncodeCp c.toNat ++ acc) []

/-! ### MD5 (RFC 1321), over byte lists, 32-bit words as `Nat` mod `2 ^ 32` -/

/-- The 64 MD5 sine-derived constants. -/
def md5K : List Nat :=
  [0xd76aa478, 0xe8c7b756, 0x242070db, 0xc1bdceee,
   0xf57c0faf, 0x4787c62a, 0xa8304613, 0xfd469501,
   0x698098d8, 0x8b44f7af, 0xffff5bb1, 0x895cd7be,
   0x6b901122, 0xfd987193, 0xa679438e, 0x49b40821,
   0xf61e2562, 0xc040b340, 0x265e5a51, 0xe9b6c7aa,
   0xd62f105d, 0x02441453, 0xd8a1e681, 0xe7d3fbc8,
   0x21e1cde6, 0xc33707d6, 0xf4d50d87, 0x455a14ed,
   0xa9e3e905, 0xfcefa3f8, 0x676f02d9, 0x8d2a4c8a,
   0xfffa3942, 0x8771f681, 0x6d9d6122, 0xfde5380c,
   0xa4beea44, 0x4bdecfa9, 0xf6bb4b60, 0xbebfbc70,
   0x289b7ec6, 0xeaa127fa, 0xd4ef3085, 0x04881d05,
   0xd9d4d039, 0xe6db99e5, 0x1fa27cf8, 0xc4ac5665,
   0xf4292244, 0x432aff97, 0xab9423a7, 0xfc93a039,
   0x655b59c3, 0x8f0ccc92, 0xffeff47d, 0x85845dd1,
   0x6fa87e4f, 0xfe2ce6e0, 0xa3014314, 0x4e0811a1,
   0xf7537e82, 0xbd3af235, 0x2ad7d2bb, 0xeb86d391]

/-- The 64 MD5 per-round left-rotation amounts. -/
def md5S : List Nat :=
  [7, 12, 17, 22, 7, 12, 17, 22, 7, 12, 17, 22, 7, 12, 17, 22,
   5, 9, 14, 20, 5, 9, 14, 20, 5, 9, 14, 20, 5, 9, 14, 20,
   4, 11, 16, 23, 4, 11, 16, 23, 4, 11, 16, 23, 4, 11, 16, 23,
   6, 10, 15, 21, 6, 10, 15, 21, 6, 10, 15, 21, 6, 10, 15, 21]

/-- Left-rotation of a 32-bit word (argument assumed `< 2 ^ 32`). -/
def rotl32 (x s : Nat) : Nat :=
  x * 2 ^ s % 2 ^ 32 + x / 2 ^ (32 - s)

/-- Bitwise complement within 32 bits (argument assumed `< 2 ^ 32`). -/
def not32 (x : Nat) : Nat := 2 ^ 32 - 1 - x

/-- The MD5 round function and message index for operation `i` (0–63). -/
def md5FG (b c d i : Nat) : Nat × Nat :=
  if i < 16 then ((b &&& c) ||| (not32 b &&& d), i)
  else if i < 32 then ((d &&& b) ||| (not32 d &&& c), (5 * i + 1) % 16)
  else if i < 48 then (b ^^^ c ^^^ d, (3 * i + 5) % 16)
  else (c ^^^ (b ||| not32 d), 7 * i % 16)

/-- One of the 64 MD5 operations. `M j` is the `j`-th little-endian 32-bit
word of the current 512-bit block. -/
def md5Step (M : Nat → Nat) (st : Nat × Nat × Nat × Nat) (i : Nat) :
    Nat × Nat × Nat × Nat :=
  let (a, b, c, d) := st
  let (f, g) := md5FG b c d i
  let tmp := (a + f + md5K.getD i 0 + M g) % 2 ^ 32
  (d, (b + rotl32 tmp (md5S.getD i 0)) % 2 ^ 32, b, c)

/-- Processing of one 512-bit block. -/
def md5Block (st : Nat × Nat × Nat × Nat) (M : Nat → Nat) :
    Nat × Nat × Nat × Nat :=
  let r := (List.range 64).foldl (md5Step M) st
  ((st.1 + r.1) % 2 ^ 32, (st.2.1 + r.2.1) % 2 ^ 32,
   (st.2.2.1 + r.2.2.1) % 2 ^ 32, (st.2.2.2 + r.2.2.2) % 2 ^ 32)

/-- MD5 padding: `0x80`, zeros to 56 mod 64, then the bit length as a 64-bit
little-endian quantity. -/
def md5Pad (msg : List Nat) : List Nat :=
  let L := msg.length
  let zeros := (120 - (L + 1) % 64) % 64
  msg ++ [0x80] ++ List.replicate zeros 0 ++
    (List.range 8).map (fun i => 8 * L % 2 ^ 64 / 2 ^ (8 * i) % 256)

/-- Little-endian 32-bit word read from a byte list at offset `i`. -/
def le32At (l : List Nat) (i : Nat) : Nat :=
  l.getD i 0 + 256 * l.getD (i + 1) 0 + 65536 * l.getD (i + 2) 0 +
    16777216 * l.getD (i + 3) 0

/-- The four bytes of a 32-bit word, little-endian. -/
def wordLEBytes (w : Nat) : List Nat :=
  [w % 256, w / 256 % 256, w / 65536 % 256, w / 16777216 % 256]

/-- MD5 digest (16 bytes) of a byte list. -/
def md5 (msg : List Nat) : List Nat :=
  let p := md5Pad msg
  let final := (List.range (p.length / 64)).foldl
    (fun st bi => md5Block st (fun j => le32At p (64 * bi + 4 * j)))
    (0x67452301, 0xefcdab89, 0x98badcfe, 0x10325476)
  wordLEBytes final.1 ++ wordLEBytes final.2.1 ++ wordLEBytes final.2.2.1 ++
    wordLEBytes final.2.2.2

/-- Uppercase hexadecimal digits. -/
def hexDigits : List Char :=
  ['0', '1', '2', '3', '4', '5', '6', '7', '8', '9', 'A', 'B', 'C', 'D', 'E', 'F']

/-- Uppercase hexadecimal rendering of a byte list
(`digest('hex').toUpperCase()`). -/
def hexUpper (bytes : List Nat) : String :=
  String.mk (bytes.foldr
    (fun b acc => hexDigits.getD (b / 16) '0' :: hexDigits.getD (b % 16) '0' :: acc) [])

/-! ### The signature algorithm (`calculateSign`) -/

/-- JS object property read, modelling `params[k]` on an object represented
as a key–value list (JS objects have unique keys; a parsed JSON object also
has unique keys, duplicate source keys having been collapsed by the parser).
An absent key reads as `undefined`. -/
def paramGet (params : List (String × JVal)) (k : String) : JVal :=
  match params with
  | [] => JVal.undef
  | (k1, v) :: rest => if k1 = k then v else paramGet rest k

/-- Lexicographic comparison of character lists by code point (helper of
`keyLe`). -/
def keyLeAux : List Char → List Char → Bool
  | [], _ => true
  | _ :: _, [] => false
  | a :: as, b :: bs =>
    if a.toNat < b.toNat then true
    else if b.toNat < a.toNat then false
    else keyLeAux as bs

/-- Lexicographic order on strings by code point, the comparison performed
by JavaScript's default `sort()` comparator (for the basic-plane keys used
by this code, code-unit, code-point and UTF-8 byte order all agree). -/
def keyLe (a b : String) : Bool := keyLeAux a.data b.data

/-- Insertion of a string into a sorted list (helper of `sortKeys`). -/
def insertKey (x : String) : List String → List String
  | [] => [x]
  | y :: ys => if keyLe x y then x :: y :: ys else y :: insertKey x ys

/-- Lexicographic sorting of the key list, modelling
`Object.keys(params).sort()`. -/
def sortKeys : List String → List String
  | [] => []
  | x :: xs => insertKey x (sortKeys xs)

/-- The value filter of `calculateSign`:
`params[k] !== '' && params[k] !== null && params[k] !== undefined`. -/
def signKeep (params : List (String × JVal)) (k : String) : Bool :=
  !(paramGet params k).eqStr "" && !(paramGet params k matches .null) &&
    !(paramGet params k matches .undef)

/-- `calculateSign` from the callback module: sort the keys, drop the `sign`
key and empty/null/undefined values, join `k=v` pairs with `&`, append
`&key=<secret>`, MD5, uppercase hex. -/
def calculateSign (params : List (String × JVal)) (key : String) : String :=
  let sortedKeys := sortKeys (params.map Prod.fst)
  let signStr := String.intercalate "&"
    ((sortedKeys.filter (fun k => k != "sign" && signKeep params k)).map
      (fun k => k ++ "=" ++ jsToString (paramGet params k)))
  let fullStr := signStr ++ "&key=" ++ key
  hexUpper (md5 (utf8Bytes fullStr))

/-- The signature pipeline exactly as the specification words it (drop
empty/null/absent values, sort the REMAINING keys, join, append the secret,
MD5, uppercase hex) — with no special treatment of a `sign` entry. Used to
compare the spec's description against `calculateSign`. -/
def computeSignatureClaim (params : List (String × JVal)) (key : String) : String :=
  let keptKeys := (params.map Prod.fst).filter (fun k => signKeep params k)
  let sortedKeys := sortKeys keptKeys
  let signStr := String.intercalate "&"
    (sortedKeys.map (fun k => k ++ "=" ++ jsToString (paramGet params k)))
  hexUpper (md5 (utf8Bytes (signStr ++ "&key=" ++ key)))

/-- The signature pipeline as the specification words it, amended with the
one behaviour the code adds: any entry under the key `sign` is also dropped
before canonicalization. -/
def computeSignatureAmended (params : List (String × JVal)) (key : String) : String :=
  let keptKeys := (params.map Prod.fst).filter
    (fun k => k != "sign" && signKeep params k)
  let sortedKeys := sortKeys keptKeys
  let signStr := String.intercalate "&"
    (sortedKeys.map (fun k => k ++ "=" ++ jsToString (paramGet params k)))
  hexUpper (md5 (utf8Bytes (signStr ++ "&key=" ++ key)))

/-! ### Data model: orders, users, the record store, the request body -/

/-- An `Order` record as read and written by the callback path. Fields the
path never touches (`userId`, `productType`, `amount`) are omitted; `none`
in `transactionId`/`paidAt` models an unset field. -/
structure Order where
  id : String
  outTradeNo : String
  status : String
  transactionId : Option JVal
  paidAt : Option Nat

/-- The entitlement subset of a `_User` record touched by the callback path.
`none` models a field never set. -/
structure User where
  id : String
  vipType : Option JVal
  vipPurchaseTime : Option Nat
  vipExpireTime : Option JVal
  vipOrderIds : Option (List String)

/-- The record store (LeanCloud), modelled as in the specification's
OrderStore/EntitlementStore contracts: lists of records read by predicate
and updated in place. -/
structure Store where
  orders : List Order
  users : List User

/-- The fields of `req.body` destructured by the handler. `attach` is the
result of `JSON.parse` on the raw attachment: `none` models a string the
parser rejects (including an absent field, since `JSON.parse(undefined)`
throws). -/
structure CallbackBody where
  out_trade_no : JVal
  transaction_id : JVal
  total_fee : JVal
  attach : Option JVal
  sign : JVal

/-- Property read after destructuring, modelling
`const { userId, productType } = attachData` for non-nullish `attachData`:
object fields are looked up, every other value yields `undefined`. -/
def getField (j : JVal) (k : String) : JVal :=
  match j with
  | .obj fields => paramGet fields k
  | _ => JVal.undef

/-- Replacement of the first record satisfying `p` (the record fetched by a
query is the one written back by `save`). -/
def updateFirst (p : α → Bool) (f : α → α) : List α → List α
  | [] => []
  | x :: xs => if p x then f x :: xs else x :: updateFirst p f xs

/-- EntitlementStore read, modelled per the specification's contract for
this external collaborator (§2, §4.3 step 5): look up the user record by the
decoded identifier; a non-string identifier finds nothing. -/
def findUser (users : List User) (userId : JVal) : Option User :=
  match userId with
  | .str s => users.find? (fun u => u.id == s)
  | _ => none

/-- The order mutation of the `pending` branch (lines 94–96 of the source):
`status = 'paid'`, `transactionId = transaction_id`, `paidAt = new Date()`. -/
def markPaid (o : Order) (tx : JVal) (now : Nat) : Order :=
  { o with status := "paid", transactionId := some tx, paidAt := some now }

/-- The entitlement mutation (lines 106–117 of the source): overwrite
`vipType` and `vipPurchaseTime`, null out `vipExpireTime` for the lifetime
product, append the order id to `vipOrderIds` (absent list read as `[]`). -/
def grantVip (user : User) (productType : JVal) (now : Nat) (orderId : String) :
    User :=
  let u1 := { user with vipType := some productType, vipPurchaseTime := some now }
  let u2 := if productType.eqStr "lifetime"
    then { u1 with vipExpireTime := some JVal.null } else u1
  { u2 with vipOrderIds := some (user.vipOrderIds.getD [] ++ [orderId]) }

/-- `handlePaymentCallback`, with the response body (`"SUCCESS"`/`"FAIL"`)
and the post-state of the record store made explicit. Control flow follows
the source: signature check, `JSON.parse` of `attach` (throwing parse or the
TypeError of destructuring `null`/`undefined` is caught and answered
`FAIL`), order lookup by `outTradeNo`, the idempotency branch on `status`,
the conditional entitlement grant, and the fall-through `SUCCESS`. -/
def handlePaymentCallback (key : String) (now : Nat) (body : CallbackBody)
    (s : Store) : String × Store :=
  let calcSign := calculateSign
    [("out_trade_no", body.out_trade_no), ("transaction_id", body.transaction_id),
     ("total_fee", body.total_fee)] key
  if !body.sign.eqStr calcSign then ("FAIL", s)
  else
    match body.attach with
    | none => ("FAIL", s)
    | some attachData =>
      if attachData.isNullish then ("FAIL", s)
      else
        let userId := getField attachData "userId"
        let productType := getField attachData "productType"
        match s.orders.find? (fun o => body.out_trade_no.eqStr o.outTradeNo) with
        | none => ("FAIL", s)
        | some order =>
          if order.status = "paid" then ("SUCCESS", s)
          else if order.status = "pending" then
            let orders1 := updateFirst
              (fun o => body.out_trade_no.eqStr o.outTradeNo)
              (fun _ => markPaid order body.transaction_id now) s.orders
            match findUser s.users userId with
            | some user =>
              ("SUCCESS",
               { orders := orders1,
                 users := updateFirst (fun u => u.id == user.id)
                   (fun _ => grantVip user productType now order.id) s.users })
            | none => ("SUCCESS", { orders := orders1, users := s.users })
          else ("SUCCESS", s)

/-- Sequential redelivery: the store after a sequence of callback
invocations, each with its own request body and wall-clock instant. -/
def runCallbacks (key : String) (reqs : List (CallbackBody × Nat)) (s : Store) :
    Store :=
  reqs.foldl (fun st r => (handlePaymentCallback key r.2 r.1 st).2) s

/-- Evolution of one order record across callback handling: it is either
untouched, or it was `pending` and has undergone the one `markPaid`
mutation (which sets `status`, `transactionId` and `paidAt` together). -/
def OrderEvolves (o o2 : Order) : Prop :=
  o2 = o ∨ (o.status = "pending" ∧ ∃ tx t, o2 = markPaid o tx t)

/-- The field-coupling invariant of the data model: `transactionId` and
`paidAt` are set exactly when `status` is `paid`. -/
def OrderConsistent (o : Order) : Prop :=
  (o.status = "paid" ↔ o.transactionId.isSome = true) ∧
  (o.status = "paid" ↔ o.paidAt.isSome = true)

instance (o : Order) : Decidable (OrderConsistent o) := by
  unfold OrderConsistent
  infer_instance

/-- The exact conditions under which the handler reaches the entitlement
write: valid signature, destructurable attachment, a matching order in
state `pending`, and an existing user record for the decoded identifier. -/
def GrantPath (key : String) (body : CallbackBody) (s : Store) : Prop :=
  body.sign = JVal.str (calculateSign
    [("out_trade_no", body.out_trade_no), ("transaction_id", body.transaction_id),
     ("total_fee", body.total_fee)] key) ∧
  ∃ j, body.attach = some j ∧ j.isNullish = false ∧
    ∃ order,
      s.orders.find? (fun o => body.out_trade_no.eqStr o.outTradeNo) = some order ∧
      order.status = "pending" ∧
      ∃ u, findUser s.users (getField j "userId") = some u

/-! ### Concrete records used by witnesses and counterexamples -/

/-- A pending order awaiting its callback. -/
def demoOrder : Order :=
  { id := "o1", outTradeNo := "t1", status := "pending",
    transactionId := none, paidAt := none }

/-- The same order already cancelled. -/
def demoCancelled : Order := { demoOrder with status := "cancelled" }

/-- A user record with no entitlement fields set yet. -/
def demoUser : User :=
  { id := "u1", vipType := none, vipPurchaseTime := none,
    vipExpireTime := none, vipOrderIds := none }

/-- Store holding the pending order and its user. -/
def demoStore : Store := ⟨[demoOrder], [demoUser]⟩

/-- Store holding the pending order but no user record. -/
def demoStoreNoUser : Store := ⟨[demoOrder], []⟩

/-- Store holding the cancelled order and the user. -/
def demoStoreCancelled : Store := ⟨[demoCancelled], [demoUser]⟩

/-- The decoded attachment `{"userId":"u1","productType":"lifetime"}`. -/
def demoAttach : JVal :=
  .obj [("userId", JVal.str "u1"), ("productType", JVal.str "lifetime")]

/-- A correctly signed callback body matching `demoOrder`. -/
def demoBody : CallbackBody :=
  { out_trade_no := .str "t1", transaction_id := .str "tx1",
    total_fee := .num 6900, attach := some demoAttach,
    sign := .str (calculateSign
      [("out_trade_no", JVal.str "t1"), ("transaction_id", JVal.str "tx1"),
       ("total_fee", JVal.num 6900)] "k") }

/-- The same body with a tampered signature field. -/
def demoBodyBadSign : CallbackBody := { demoBody with sign := JVal.num 0 }

/-- The same body whose attachment parses to `{}` (valid JSON, but missing
both required fields). -/
def demoBodyEmptyAttach : CallbackBody :=
  { demoBody with attach := some (.obj []) }

/-- The same body whose attachment does not parse at all. -/
def demoBodyNoAttach : CallbackBody := { demoBody with attach := none }

/-! ### Helper lemmas about `sortKeys`, `paramGet`, `updateFirst` -/

lemma keyLeAux_total : ∀ as bs, keyLeAux as bs = true ∨ keyLeAux bs as = true
  | [], _ => Or.inl rfl
  | _ :: _, [] => Or.inr rfl
  | a :: as, b :: bs => by
    simp only [keyLeAux]
    rcases Nat.lt_trichotomy a.toNat b.toNat with h | h | h
    · left
      rw [if_pos h]
    · rw [if_neg (by omega), if_neg (by omega), if_neg (by omega), if_neg (by omega)]
      exact keyLeAux_total as bs
    · right
      rw [if_pos h]

lemma keyLeAux_trans : ∀ as bs cs, keyLeAux as bs = true → keyLeAux bs cs = true →
    keyLeAux as cs = true
  | [], _, _ => fun _ _ => rfl
  | _ :: _, [], _ => fun h1 _ => by simp [keyLeAux] at h1
  | _ :: _, _ :: _, [] => fun _ h2 => by simp [keyLeAux] at h2
  | a :: as, b :: bs, c :: cs => fun h1 h2 => by
    simp only [keyLeAux] at h1 h2 ⊢
    rcases Nat.lt_trichotomy a.toNat b.toNat with hab | hab | hab
    · rcases Nat.lt_trichotomy b.toNat c.toNat with hbc | hbc | hbc
      · rw [if_pos (by omega)]
      · rw [if_pos (by omega)]
      · rw [if_neg (by omega), if_pos hbc] at h2
        cases h2
    · rcases Nat.lt_trichotomy b.toNat c.toNat with hbc | hbc | hbc
      · rw [if_pos (by omega)]
      · rw [if_neg (by omega), if_neg (by omega)] at h1 h2 ⊢
        exact keyLeAux_trans as bs cs h1 h2
      · rw [if_neg (by omega), if_pos hbc] at h2
        cases h2
    · rw [if_neg (by omega), if_pos hab] at h1
      cases h1

lemma keyLeAux_antisymm : ∀ as bs, keyLeAux as bs = true → keyLeAux bs as = true →
    as = bs
  | [], [] => fun _ _ => rfl
  | [], _ :: _ => fun _ h2 => by simp [keyLeAux] at h2
  | _ :: _, [] => fun h1 _ => by simp [keyLeAux] at h1
  | a :: as, b :: bs => fun h1 h2 => by
    simp only [keyLeAux] at h1 h2
    rcases Nat.lt_trichotomy a.toNat b.toNat with h | h | h
    · rw [if_neg (by omega), if_pos h] at h2
      cases h2
    · rw [if_neg (by omega), if_neg (by omega)] at h1 h2
      have hc : a = b := Char.ext (UInt32.ext h)
      rw [hc, keyLeAux_antisymm as bs h1 h2]
    · rw [if_neg (by omega), if_pos h] at h1
      cases h1

lemma keyLe_total (a b : String) : keyLe a b = true ∨ keyLe b a = true :=
  keyLeAux_total a.data b.data

lemma keyLe_trans {a b c : String} (h1 : keyLe a b = true) (h2 : keyLe b c = true) :
    keyLe a c = true :=
  keyLeAux_trans a.data b.data c.data h1 h2

lemma keyLe_antisymm {a b : String} (h1 : keyLe a b = true) (h2 : keyLe b a = true) :
    a = b := by
  have h := keyLeAux_antisymm a.data b.data h1 h2
  cases a
  cases b
  simp_all

lemma insertKey_perm (x : String) (l : List String) :
    List.Perm (insertKey x l) (x :: l) := by
  induction l with
  | nil => rfl
  | cons y ys ih =>
    simp only [insertKey]
    split
    · rfl
    · exact (List.Perm.cons y ih).trans (List.Perm.swap x y ys)

lemma sortKeys_perm (l : List String) : List.Perm (sortKeys l) l := by
  induction l with
  | nil => rfl
  | cons x xs ih =>
    simpa only [sortKeys] using (insertKey_perm x (sortKeys xs)).trans (ih.cons x)

lemma insertKey_sorted (x : String) (l : List String)
    (h : l.Sorted (fun a b => keyLe a b = true)) :
    (insertKey x l).Sorted (fun a b => keyLe a b = true) := by
  induction l with
  | nil => simp [insertKey]
  | cons y ys ih =>
    rw [List.sorted_cons] at h
    simp only [insertKey]
    split
    · rename_i hxy
      rw [List.sorted_cons]
      refine ⟨?_, List.sorted_cons.2 h⟩
      intro b hb
      rcases List.mem_cons.1 hb with rfl | hb
      · exact hxy
      · exact keyLe_trans hxy (h.1 b hb)
    · rename_i hxy
      have hyx : keyLe y x = true := by
        rcases keyLe_total x y with h2 | h2
        · exact absurd h2 hxy
        · exact h2
      rw [List.sorted_cons]
      refine ⟨?_, ih h.2⟩
      intro b hb
      rcases List.mem_cons.1 ((insertKey_perm x ys).mem_iff.1 hb) with rfl | hb2
      · exact hyx
      · exact h.1 b hb2

lemma sortKeys_sorted (l : List String) :
    (sortKeys l).Sorted (fun a b => keyLe a b = true) := by
  induction l with
  | nil => simp [sortKeys]
  | cons x xs ih => exact insertKey_sorted x _ ih

lemma sortKeys_eq_of_perm {l₁ l₂ : List String} (h : List.Perm l₁ l₂) :
    sortKeys l₁ = sortKeys l₂ :=
  letI : IsAntisymm String (fun a b => keyLe a b = true) :=
    ⟨fun _ _ h1 h2 => keyLe_antisymm h1 h2⟩
  List.eq_of_perm_of_sorted
    ((sortKeys_perm l₁).trans (h.trans (sortKeys_perm l₂).symm))
    (sortKeys_sorted l₁) (sortKeys_sorted l₂)

lemma sortKeys_filter (q : String → Bool) (l : List String) :
    sortKeys (l.filter q) = (sortKeys l).filter q :=
  letI : IsAntisymm String (fun a b => keyLe a b = true) :=
    ⟨fun _ _ h1 h2 => keyLe_antisymm h1 h2⟩
  List.eq_of_perm_of_sorted
    ((sortKeys_perm _).trans ((sortKeys_perm l).filter q).symm)
    (sortKeys_sorted _) ((sortKeys_sorted l).filter q)

lemma paramGet_perm {l₁ l₂ : List (String × JVal)} (hperm : List.Perm l₁ l₂)
    (hnd : (l₁.map Prod.fst).Nodup) (k : String) :
    paramGet l₁ k = paramGet l₂ k := by
  induction hperm with
  | nil => rfl
  | cons x h ih =>
    simp only [List.map_cons, List.nodup_cons] at hnd
    simp only [paramGet]
    split
    · rfl
    · exact ih hnd.2
  | swap x y l =>
    simp only [List.map_cons, List.nodup_cons, List.mem_cons] at hnd
    have hxy : y.1 ≠ x.1 := fun h => hnd.1 (Or.inl h)
    simp only [paramGet]
    by_cases h1 : y.1 = k
    · by_cases h2 : x.1 = k
      · exact absurd (h1.trans h2.symm) hxy
      · simp [h1, h2]
    · by_cases h2 : x.1 = k <;> simp [h1, h2]
  | trans h1 h2 ih1 ih2 =>
    exact (ih1 hnd).trans (ih2 (((h1.map Prod.fst).nodup_iff).1 hnd))

lemma map_fst_filterKey (q : String → Bool) (l : List (String × JVal)) :
    (l.filter (fun kv => q kv.1)).map Prod.fst = (l.map Prod.fst).filter q := by
  induction l with
  | nil => rfl
  | cons x xs ih =>
    by_cases h : q x.1 <;> simp [List.filter_cons, h, ih]

lemma paramGet_filterKey (q : String → Bool) (l : List (String × JVal))
    (k : String) (hk : q k = true) :
    paramGet (l.filter (fun kv => q kv.1)) k = paramGet l k := by
  induction l with
  | nil => rfl
  | cons x xs ih =>
    rcases hx : q x.1 with _ | _
    · have hne : x.1 ≠ k := fun h => by rw [h, hk] at hx; cases hx
      simp [List.filter_cons, hx, paramGet, hne, ih]
    · simp only [List.filter_cons, hx, if_pos, paramGet]
      split
      · rfl
      · exact ih

lemma find?_updateFirst_const (p : α → Bool) (y : α) {l : List α} {x : α}
    (hf : l.find? p = some x) (hy : p y = true) :
    (updateFirst p (fun _ => y) l).find? p = some y := by
  induction l with
  | nil => cases hf
  | cons z zs ih =>
    simp only [updateFirst]
    by_cases hz : p z = true
    · rw [if_pos hz, List.find?_cons_of_pos _ hy]
    · rw [if_neg hz, List.find?_cons_of_neg _ hz]
      rw [List.find?_cons_of_neg _ hz] at hf
      exact ih hf

lemma filterTwice (p q : String → Bool) (l : List String) :
    (l.filter q).filter p = l.filter (fun k => q k && p k) := by
  induction l with
  | nil => rfl
  | cons x xs ih =>
    cases hx : q x
    · simp [List.filter_cons, hx, ih]
    · cases hpx : p x <;> simp [List.filter_cons, hx, hpx, ih]

lemma bool_eq_false {b : Bool} (h : ¬ b = true) : b = false := by
  cases b
  · rfl
  · exact absurd rfl h

lemma eqStr_true_iff (v : JVal) (s : String) :
    (v.eqStr s = true) ↔ v = JVal.str s := by
  cases v <;> simp [JVal.eqStr]

lemma eqStr_self (s : String) : JVal.eqStr (JVal.str s) s = true := by
  simp [JVal.eqStr]

/-! ### Branch lemmas for `handlePaymentCallback` -/

lemma handle_badSign (key : String) (now : Nat) (body : CallbackBody) (s : Store)
    (hs : body.sign ≠ JVal.str (calculateSign
      [("out_trade_no", body.out_trade_no), ("transaction_id", body.transaction_id),
       ("total_fee", body.total_fee)] key)) :
    handlePaymentCallback key now body s = ("FAIL", s) := by
  have hb : body.sign.eqStr (calculateSign
      [("out_trade_no", body.out_trade_no), ("transaction_id", body.transaction_id),
       ("total_fee", body.total_fee)] key) = false := by
    cases h2 : body.sign.eqStr (calculateSign
      [("out_trade_no", body.out_trade_no), ("transaction_id", body.transaction_id),
       ("total_fee", body.total_fee)] key)
    · rfl
    · exact absurd ((eqStr_true_iff _ _).1 h2) hs
  simp [handlePaymentCallback, hb]

lemma handle_attachNone (key : String) (now : Nat) (body : CallbackBody) (s : Store)
    (hatt : body.attach = none) :
    handlePaymentCallback key now body s = ("FAIL", s) := by
  by_cases h2 : body.sign.eqStr (calculateSign
      [("out_trade_no", body.out_trade_no), ("transaction_id", body.transaction_id),
       ("total_fee", body.total_fee)] key) = true
  · simp [handlePaymentCallback, h2, hatt]
  · simp [handlePaymentCallback, bool_eq_false h2]

lemma handle_nullish (key : String) (now : Nat) (body : CallbackBody) (s : Store)
    {j : JVal} (hatt : body.attach = some j) (hj : j.isNullish = true) :
    handlePaymentCallback key now body s = ("FAIL", s) := by
  by_cases h2 : body.sign.eqStr (calculateSign
      [("out_trade_no", body.out_trade_no), ("transaction_id", body.transaction_id),
       ("total_fee", body.total_fee)] key) = true
  · simp [handlePaymentCallback, h2, hatt, hj]
  · simp [handlePaymentCallback, bool_eq_false h2]

lemma handle_noOrder (key : String) (now : Nat) (body : CallbackBody) (s : Store)
    (hord : s.orders.find? (fun o => body.out_trade_no.eqStr o.outTradeNo) = none) :
    handlePaymentCallback key now body s = ("FAIL", s) := by
  by_cases h2 : body.sign.eqStr (calculateSign
      [("out_trade_no", body.out_trade_no), ("transaction_id", body.transaction_id),
       ("total_fee", body.total_fee)] key) = true
  · cases hatt : body.attach with
    | none => simp [handlePaymentCallback, h2, hatt]
    | some j =>
      by_cases hj : j.isNullish = true
      · simp [handlePaymentCallback, h2, hatt, hj]
      · simp [handlePaymentCallback, h2, hatt, bool_eq_false hj, hord]
  · simp [handlePaymentCallback, bool_eq_false h2]

lemma handle_paid (key : String) (now : Nat) (body : CallbackBody) (s : Store)
    {j : JVal} {order : Order}
    (hsign : body.sign = JVal.str (calculateSign
      [("out_trade_no", body.out_trade_no), ("transaction_id", body.transaction_id),
       ("total_fee", body.total_fee)] key))
    (hatt : body.attach = some j) (hj : j.isNullish = false)
    (hord : s.orders.find? (fun o => body.out_trade_no.eqStr o.outTradeNo) = some order)
    (hpaid : order.status = "paid") :
    handlePaymentCallback key now body s = ("SUCCESS", s) := by
  simp [handlePaymentCallback, hsign, hatt, hj, hord, hpaid, eqStr_self]

lemma handle_other (key : String) (now : Nat) (body : CallbackBody) (s : Store)
    {j : JVal} {order : Order}
    (hsign : body.sign = JVal.str (calculateSign
      [("out_trade_no", body.out_trade_no), ("transaction_id", body.transaction_id),
       ("total_fee", body.total_fee)] key))
    (hatt : body.attach = some j) (hj : j.isNullish = false)
    (hord : s.orders.find? (fun o => body.out_trade_no.eqStr o.outTradeNo) = some order)
    (hnp : order.status ≠ "paid") (hnpend : order.status ≠ "pending") :
    handlePaymentCallback key now body s = ("SUCCESS", s) := by
  simp [handlePaymentCallback, hsign, hatt, hj, hord, hnp, hnpend, eqStr_self]

lemma handle_grant (key : String) (now : Nat) (body : CallbackBody) (s : Store)
    {j : JVal} {order : Order} {u : User}
    (hsign : body.sign = JVal.str (calculateSign
      [("out_trade_no", body.out_trade_no), ("transaction_id", body.transaction_id),
       ("total_fee", body.total_fee)] key))
    (hatt : body.attach = some j) (hj : j.isNullish = false)
    (hord : s.orders.find? (fun o => body.out_trade_no.eqStr o.outTradeNo) = some order)
    (hpend : order.status = "pending")
    (huser : findUser s.users (getField j "userId") = some u) :
    handlePaymentCallback key now body s =
      ("SUCCESS",
       { orders := updateFirst (fun o => body.out_trade_no.eqStr o.outTradeNo)
           (fun _ => markPaid order body.transaction_id now) s.orders,
         users := updateFirst (fun u2 => u2.id == u.id)
           (fun _ => grantVip u (getField j "productType") now order.id) s.users }) := by
  simp [handlePaymentCallback, hsign, hatt, hj, hord, hpend, huser, eqStr_self]

lemma handle_grant_noUser (key : String) (now : Nat) (body : CallbackBody) (s : Store)
    {j : JVal} {order : Order}
    (hsign : body.sign = JVal.str (calculateSign
      [("out_trade_no", body.out_trade_no), ("transaction_id", body.transaction_id),
       ("total_fee", body.total_fee)] key))
    (hatt : body.attach = some j) (hj : j.isNullish = false)
    (hord : s.orders.find? (fun o => body.out_trade_no.eqStr o.outTradeNo) = some order)
    (hpend : order.status = "pending")
    (huser : findUser s.users (getField j "userId") = none) :
    handlePaymentCallback key now body s =
      ("SUCCESS",
       { orders := updateFirst (fun o => body.out_trade_no.eqStr o.outTradeNo)
           (fun _ => markPaid order body.transaction_id now) s.orders,
         users := s.users }) := by
  simp [handlePaymentCallback, hsign, hatt, hj, hord, hpend, huser, eqStr_self]

lemma grantVip_id (u : User) (pt : JVal) (now : Nat) (oid : String) :
    (grantVip u pt now oid).id = u.id := by
  unfold grantVip
  split <;> rfl

lemma grantVip_vipType (u : User) (pt : JVal) (now : Nat) (oid : String) :
    (grantVip u pt now oid).vipType = some pt := by
  unfold grantVip
  split <;> rfl

lemma grantVip_vipPurchaseTime (u : User) (pt : JVal) (now : Nat) (oid : String) :
    (grantVip u pt now oid).vipPurchaseTime = some now := by
  unfold grantVip
  split <;> rfl

lemma grantVip_vipExpireTime_lifetime (u : User) (now : Nat) (oid : String) :
    (grantVip u (JVal.str "lifetime") now oid).vipExpireTime = some JVal.null := rfl

lemma findUser_updateFirst_grant {users : List User} {uid : JVal} {u : User}
    (g : User) (huser : findUser users uid = some u) (hgid : g.id = u.id) :
    findUser (updateFirst (fun u2 => u2.id == u.id) (fun _ => g) users) uid
      = some g := by
  obtain ⟨s0, rfl⟩ : ∃ s0, uid = JVal.str s0 := by
    cases uid <;> first | exact ⟨_, rfl⟩ | simp [findUser] at huser
  simp only [findUser] at huser ⊢
  have hbeq := List.find?_some huser
  have hid : u.id = s0 := eq_of_beq (by exact hbeq)
  rw [hid]
  exact find?_updateFirst_const _ _ huser (by rw [hgid, hid]; simp)

/-! ### Evolution of the order list (for the C7 invariant) -/

lemma evolves_trans {o1 o2 o3 : Order}
    (h1 : OrderEvolves o1 o2) (h2 : OrderEvolves o2 o3) : OrderEvolves o1 o3 := by
  rcases h1 with rfl | ⟨hp, tx, t, rfl⟩
  · exact h2
  · rcases h2 with rfl | ⟨hp2, tx2, t2, rfl⟩
    · exact Or.inr ⟨hp, tx, t, rfl⟩
    · simp [markPaid] at hp2

lemma forall₂_evolves_refl (l : List Order) : List.Forall₂ OrderEvolves l l :=
  List.forall₂_same.2 (fun _ _ => Or.inl rfl)

lemma forall₂_evolves_trans {l1 l2 l3 : List Order}
    (h1 : List.Forall₂ OrderEvolves l1 l2) (h2 : List.Forall₂ OrderEvolves l2 l3) :
    List.Forall₂ OrderEvolves l1 l3 := by
  induction h1 generalizing l3 with
  | nil => cases h2; exact .nil
  | cons hab htail ih =>
    cases h2 with
    | cons hbc h2t => exact .cons (evolves_trans hab hbc) (ih h2t)

lemma evolves_updateFirst {l : List Order} {p : Order → Bool} {order : Order}
    (hf : l.find? p = some order) (hp : order.status = "pending")
    (tx : JVal) (t : Nat) :
    List.Forall₂ OrderEvolves l (updateFirst p (fun _ => markPaid order tx t) l) := by
  induction l with
  | nil => exact .nil
  | cons z zs ih =>
    simp only [updateFirst]
    by_cases hz : p z = true
    · rw [if_pos hz]
      rw [List.find?_cons_of_pos _ hz] at hf
      injection hf with hf
      subst hf
      exact .cons (Or.inr ⟨hp, tx, t, rfl⟩) (forall₂_evolves_refl zs)
    · rw [if_neg hz]
      rw [List.find?_cons_of_neg _ hz] at hf
      exact .cons (Or.inl rfl) (ih hf)

lemma step_evolves (key : String) (now : Nat) (body : CallbackBody) (s : Store) :
    List.Forall₂ OrderEvolves s.orders
      (handlePaymentCallback key now body s).2.orders := by
  by_cases h2 : body.sign.eqStr (calculateSign
      [("out_trade_no", body.out_trade_no), ("transaction_id", body.transaction_id),
       ("total_fee", body.total_fee)] key) = true
  · have hsign := (eqStr_true_iff _ _).1 h2
    cases hatt : body.attach with
    | none => rw [handle_attachNone key now body s hatt]; exact forall₂_evolves_refl _
    | some j =>
      by_cases hj : j.isNullish = true
      · rw [handle_nullish key now body s hatt hj]; exact forall₂_evolves_refl _
      · have hj2 := bool_eq_false hj
        cases hord : s.orders.find? (fun o => body.out_trade_no.eqStr o.outTradeNo) with
        | none => rw [handle_noOrder key now body s hord]; exact forall₂_evolves_refl _
        | some order =>
          by_cases hpaid : order.status = "paid"
          · rw [handle_paid key now body s hsign hatt hj2 hord hpaid]
            exact forall₂_evolves_refl _
          · by_cases hpend : order.status = "pending"
            · cases huser : findUser s.users (getField j "userId") with
              | some u =>
                rw [handle_grant key now body s hsign hatt hj2 hord hpend huser]
                exact evolves_updateFirst hord hpend body.transaction_id now
              | none =>
                rw [handle_grant_noUser key now body s hsign hatt hj2 hord hpend huser]
                exact evolves_updateFirst hord hpend body.transaction_id now
            · rw [handle_other key now body s hsign hatt hj2 hord hpaid hpend]
              exact forall₂_evolves_refl _
  · rw [handle_badSign key now body s (fun h => h2 ((eqStr_true_iff _ _).2 h))]
    exact forall₂_evolves_refl _

lemma run_evolves (key : String) (reqs : List (CallbackBody × Nat)) :
    ∀ s : Store,
      List.Forall₂ OrderEvolves s.orders (runCallbacks key reqs s).orders := by
  induction reqs with
  | nil => intro s; exact forall₂_evolves_refl _
  | cons r rest ih =>
    intro s
    exact forall₂_evolves_trans (step_evolves key r.2 r.1 s)
      (ih (handlePaymentCallback key r.2 r.1 s).2)

lemma run_append (key : String) (r1 r2 : List (CallbackBody × Nat)) (s : Store) :
    runCallbacks key (r1 ++ r2) s = runCallbacks key r2 (runCallbacks key r1 s) := by
  simp [runCallbacks, List.foldl_append]

lemma consistent_markPaid (o : Order) (tx : JVal) (t : Nat) :
    OrderConsistent (markPaid o tx t) := by
  simp [OrderConsistent, markPaid]

lemma evolves_consistent {o o2 : Order}
    (h : OrderEvolves o o2) (hc : OrderConsistent o) : OrderConsistent o2 := by
  rcases h with rfl | ⟨_, tx, t, rfl⟩
  · exact hc
  · exact consistent_markPaid o tx t

lemma forall₂_consistent {l l2 : List Order}
    (h : List.Forall₂ OrderEvolves l l2) (hc : ∀ o ∈ l, OrderConsistent o) :
    ∀ o ∈ l2, OrderConsistent o := by
  induction h with
  | nil => intro o ho; cases ho
  | cons hab htail ih =>
    intro o ho
    rcases List.mem_cons.1 ho with rfl | ho2
    · exact evolves_consistent hab (hc _ (List.mem_cons_self _ _))
    · exact ih (fun x hx => hc x (List.mem_cons_of_mem _ hx)) o ho2

/-! ### Claims C4, C9, C10 — the signature algorithm -/

/-- Claim C4 counterexample: on a mapping that carries a (non-empty,
non-null) `sign` entry, `calculateSign` differs from the pipeline the claim
describes, because the code additionally drops the `sign` key while the
claim's canonicalization would keep it. -/
theorem C4_counterexample :
    calculateSign [("sign", JVal.str "x")] "k" ≠
      computeSignatureClaim [("sign", JVal.str "x")] "k" := by
  decide

/-- Claim C4 (amended): for every parameter mapping and secret,
`calculateSign` drops every entry whose value is the empty string, null, or
absent — and additionally any entry under the key `sign` — sorts the
remaining keys lexicographically, joins them as `key=value` pairs with `&`,
appends `&key=<secret>`, applies MD5, and renders the digest as uppercase
hexadecimal. -/
theorem C4_ok (params : List (String × JVal)) (key : String) :
    calculateSign params key = computeSignatureAmended params key := by
  simp only [calculateSign, computeSignatureAmended, sortKeys_filter]

/-- Claim C9: the signature is insertion-order independent — two mappings
with the same entries (in any order, keys unrepeated as in a JS object)
yield the same signature. -/
theorem C9_ok (key : String) (l₁ l₂ : List (String × JVal))
    (hperm : List.Perm l₁ l₂) (hnd : (l₁.map Prod.fst).Nodup) :
    calculateSign l₁ key = calculateSign l₂ key := by
  have hget : paramGet l₁ = paramGet l₂ := funext (paramGet_perm hperm hnd)
  have hkeys : sortKeys (l₁.map Prod.fst) = sortKeys (l₂.map Prod.fst) :=
    sortKeys_eq_of_perm (hperm.map Prod.fst)
  simp only [calculateSign, signKeep, hget, hkeys]

/-- Claim C9 witness: a concrete two-entry mapping and its transposition
produce the same signature. -/
theorem C9_witness :
    List.Perm [("b", JVal.num 2), ("a", JVal.str "1")]
        [("a", JVal.str "1"), ("b", JVal.num 2)] ∧
      ([("b", JVal.num 2), ("a", JVal.str "1")].map Prod.fst).Nodup ∧
      calculateSign [("b", JVal.num 2), ("a", JVal.str "1")] "k" =
        calculateSign [("a", JVal.str "1"), ("b", JVal.num 2)] "k" :=
  ⟨List.Perm.swap _ _ _, by decide,
    C9_ok "k" _ _ (List.Perm.swap _ _ _) (by decide)⟩

/-- Claim C10: a `sign` entry present in the input is ignored — the
signature of a mapping equals the signature of the mapping with every
`sign` entry removed. -/
theorem C10_ok (params : List (String × JVal)) (key : String) :
    calculateSign params key =
      calculateSign (params.filter (fun kv => kv.1 != "sign")) key := by
  have hfil : ∀ l : List String,
      (l.filter (fun k => k != "sign")).filter
          (fun k =>
            k != "sign" && signKeep (params.filter (fun kv => kv.1 != "sign")) k)
        = l.filter (fun k => k != "sign" && signKeep params k) := by
    intro l
    rw [filterTwice]
    apply List.filter_congr
    intro k _
    by_cases hks : k = "sign"
    · subst hks; simp
    · have hb : (k != "sign") = true := by simp [hks]
      simp only [hb, Bool.true_and, signKeep]
      rw [paramGet_filterKey (fun s => s != "sign") params k hb]
  have hmap : ∀ l : List String,
      (l.filter (fun k => k != "sign" && signKeep params k)).map
          (fun k =>
            k ++ "=" ++
              jsToString (paramGet (params.filter (fun kv => kv.1 != "sign")) k))
        = (l.filter (fun k => k != "sign" && signKeep params k)).map
          (fun k => k ++ "=" ++ jsToString (paramGet params k)) := by
    intro l
    apply List.map_congr_left
    intro k hk
    have hb : (k != "sign") = true := by
      have h2 := (List.mem_filter.1 hk).2
      rw [Bool.and_eq_true] at h2
      exact h2.1
    rw [paramGet_filterKey (fun s => s != "sign") params k hb]
  simp only [calculateSign]
  rw [map_fst_filterKey (fun s => s != "sign") params,
    sortKeys_filter (fun s => s != "sign") (params.map Prod.fst),
    hfil (sortKeys (params.map Prod.fst)), hmap (sortKeys (params.map Prod.fst))]

/-! ### Claims C1–C3, C5–C8 — the callback handler -/

/-- Claim C1 counterexample: a correctly signed, decodable callback for a
`cancelled` order does NOT return the failure token — the code falls
through to `res.send('SUCCESS')` — although the store is indeed left
untouched. This refutes the claim that such a callback returns Rejected. -/
theorem C1_counterexample :
    (handlePaymentCallback "k" 5 demoBody demoStoreCancelled).1 ≠ "FAIL" ∧
    (handlePaymentCallback "k" 5 demoBody demoStoreCancelled).2
      = demoStoreCancelled :=
  ⟨by decide, rfl⟩

/-- Claim C1 (amended): for every stored order whose status is `cancelled`
or `expired`, a correctly signed callback with a decodable attachment whose
merchant order number matches that order returns Acknowledged (the success
token, not the failure token) and performs no store mutation. -/
theorem C1_ok (key : String) (now : Nat) (body : CallbackBody) (s : Store)
    (j : JVal) (order : Order)
    (hsign : body.sign = JVal.str (calculateSign
      [("out_trade_no", body.out_trade_no), ("transaction_id", body.transaction_id),
       ("total_fee", body.total_fee)] key))
    (hatt : body.attach = some j) (hj : j.isNullish = false)
    (hord : s.orders.find? (fun o => body.out_trade_no.eqStr o.outTradeNo)
      = some order)
    (hstat : order.status = "cancelled" ∨ order.status = "expired") :
    handlePaymentCallback key now body s = ("SUCCESS", s) := by
  have hnp : order.status ≠ "paid" := by rcases hstat with h | h <;> simp [h]
  have hnpend : order.status ≠ "pending" := by rcases hstat with h | h <;> simp [h]
  exact handle_other key now body s hsign hatt hj hord hnp hnpend

/-- Claim C1 witness: the amended theorem applied to the concrete cancelled
order. -/
theorem C1_witness :
    demoStoreCancelled.orders.find?
        (fun o => demoBody.out_trade_no.eqStr o.outTradeNo) = some demoCancelled ∧
    (demoCancelled.status = "cancelled" ∨ demoCancelled.status = "expired") ∧
    handlePaymentCallback "k" 5 demoBody demoStoreCancelled
      = ("SUCCESS", demoStoreCancelled) :=
  ⟨rfl, Or.inl rfl,
   C1_ok "k" 5 demoBody demoStoreCancelled demoAttach demoCancelled
     rfl rfl rfl rfl (Or.inl rfl)⟩

/-- Claim C2: redelivering the identical valid callback for a `pending`
order is idempotent — the first invocation commits the one `pending → paid`
transition and the one `vipOrderIds` append, the second mutates nothing,
and both acknowledge with the success token. -/
theorem C2_ok (key : String) (now now2 : Nat) (body : CallbackBody)
    (s : Store) (j : JVal) (order : Order) (u : User)
    (hsign : body.sign = JVal.str (calculateSign
      [("out_trade_no", body.out_trade_no), ("transaction_id", body.transaction_id),
       ("total_fee", body.total_fee)] key))
    (hatt : body.attach = some j) (hj : j.isNullish = false)
    (hord : s.orders.find? (fun o => body.out_trade_no.eqStr o.outTradeNo)
      = some order)
    (hpend : order.status = "pending")
    (huser : findUser s.users (getField j "userId") = some u) :
    (handlePaymentCallback key now body s).1 = "SUCCESS" ∧
    (handlePaymentCallback key now2 body
      (handlePaymentCallback key now body s).2).1 = "SUCCESS" ∧
    (handlePaymentCallback key now2 body
      (handlePaymentCallback key now body s).2).2
      = (handlePaymentCallback key now body s).2 ∧
    (handlePaymentCallback key now body s).2.orders.find?
        (fun o => body.out_trade_no.eqStr o.outTradeNo)
      = some (markPaid order body.transaction_id now) ∧
    findUser (handlePaymentCallback key now body s).2.users (getField j "userId")
      = some (grantVip u (getField j "productType") now order.id) ∧
    (grantVip u (getField j "productType") now order.id).vipOrderIds
      = some (u.vipOrderIds.getD [] ++ [order.id]) := by
  have hmark : (updateFirst (fun o => body.out_trade_no.eqStr o.outTradeNo)
        (fun _ => markPaid order body.transaction_id now) s.orders).find?
        (fun o => body.out_trade_no.eqStr o.outTradeNo)
      = some (markPaid order body.transaction_id now) :=
    find?_updateFirst_const _ _ hord (by have h := List.find?_some hord; exact h)
  have h1 := handle_grant key now body s hsign hatt hj hord hpend huser
  have h2 : handlePaymentCallback key now2 body
      { orders := updateFirst (fun o => body.out_trade_no.eqStr o.outTradeNo)
          (fun _ => markPaid order body.transaction_id now) s.orders,
        users := updateFirst (fun u2 => u2.id == u.id)
          (fun _ => grantVip u (getField j "productType") now order.id) s.users }
      = ("SUCCESS",
         { orders := updateFirst (fun o => body.out_trade_no.eqStr o.outTradeNo)
             (fun _ => markPaid order body.transaction_id now) s.orders,
           users := updateFirst (fun u2 => u2.id == u.id)
             (fun _ => grantVip u (getField j "productType") now order.id) s.users }) :=
    handle_paid key now2 body _ hsign hatt hj hmark rfl
  refine ⟨by rw [h1], ?_, ?_, ?_, ?_, rfl⟩
  · simp only [h1]
    rw [h2]
  · simp only [h1]
    rw [h2]
  · simp only [h1]
    exact hmark
  · simp only [h1]
    exact findUser_updateFirst_grant _ huser (grantVip_id u _ now order.id)

/-- Claim C2 witness: the idempotence theorem applied to the concrete
pending order, user and correctly signed body. -/
theorem C2_witness :
    demoStore.orders.find? (fun o => demoBody.out_trade_no.eqStr o.outTradeNo)
      = some demoOrder ∧
    demoOrder.status = "pending" ∧
    findUser demoStore.users (getField demoAttach "userId") = some demoUser ∧
    ((handlePaymentCallback "k" 5 demoBody demoStore).1 = "SUCCESS" ∧
     (handlePaymentCallback "k" 9 demoBody
       (handlePaymentCallback "k" 5 demoBody demoStore).2).1 = "SUCCESS" ∧
     (handlePaymentCallback "k" 9 demoBody
       (handlePaymentCallback "k" 5 demoBody demoStore).2).2
       = (handlePaymentCallback "k" 5 demoBody demoStore).2 ∧
     (handlePaymentCallback "k" 5 demoBody demoStore).2.orders.find?
         (fun o => demoBody.out_trade_no.eqStr o.outTradeNo)
       = some (markPaid demoOrder demoBody.transaction_id 5) ∧
     findUser (handlePaymentCallback "k" 5 demoBody demoStore).2.users
         (getField demoAttach "userId")
       = some (grantVip demoUser (getField demoAttach "productType") 5 demoOrder.id) ∧
     (grantVip demoUser (getField demoAttach "productType") 5 demoOrder.id).vipOrderIds
       = some (demoUser.vipOrderIds.getD [] ++ [demoOrder.id])) :=
  ⟨rfl, rfl, rfl,
   C2_ok "k" 5 9 demoBody demoStore demoAttach demoOrder demoUser
     rfl rfl rfl rfl rfl rfl⟩

/-- Claim C3: a valid callback for a pending order whose decoded `userId`
has no user record still commits the `pending → paid` transition, mutates
no user record, and still answers with the success token. -/
theorem C3_ok (key : String) (now : Nat) (body : CallbackBody) (s : Store)
    (j : JVal) (order : Order)
    (hsign : body.sign = JVal.str (calculateSign
      [("out_trade_no", body.out_trade_no), ("transaction_id", body.transaction_id),
       ("total_fee", body.total_fee)] key))
    (hatt : body.attach = some j) (hj : j.isNullish = false)
    (hord : s.orders.find? (fun o => body.out_trade_no.eqStr o.outTradeNo)
      = some order)
    (hpend : order.status = "pending")
    (huser : findUser s.users (getField j "userId") = none) :
    (handlePaymentCallback key now body s).1 = "SUCCESS" ∧
    (handlePaymentCallback key now body s).2.users = s.users ∧
    (handlePaymentCallback key now body s).2.orders.find?
        (fun o => body.out_trade_no.eqStr o.outTradeNo)
      = some (markPaid order body.transaction_id now) := by
  have h1 := handle_grant_noUser key now body s hsign hatt hj hord hpend huser
  refine ⟨by rw [h1], by rw [h1], ?_⟩
  simp only [h1]
  exact find?_updateFirst_const _ _ hord (by have h := List.find?_some hord; exact h)

/-- Claim C3 witness: the theorem applied to the concrete pending order
with an empty user table. -/
theorem C3_witness :
    demoStoreNoUser.orders.find?
        (fun o => demoBody.out_trade_no.eqStr o.outTradeNo) = some demoOrder ∧
    findUser demoStoreNoUser.users (getField demoAttach "userId") = none ∧
    ((handlePaymentCallback "k" 5 demoBody demoStoreNoUser).1 = "SUCCESS" ∧
     (handlePaymentCallback "k" 5 demoBody demoStoreNoUser).2.users
       = demoStoreNoUser.users ∧
     (handlePaymentCallback "k" 5 demoBody demoStoreNoUser).2.orders.find?
         (fun o => demoBody.out_trade_no.eqStr o.outTradeNo)
       = some (markPaid demoOrder demoBody.transaction_id 5)) :=
  ⟨rfl, rfl,
   C3_ok "k" 5 demoBody demoStoreNoUser demoAttach demoOrder
     rfl rfl rfl rfl rfl rfl⟩

/-- Claim C5: a callback whose `sign` differs from the recomputed signature
over `{out_trade_no, transaction_id, total_fee}`, or whose merchant order
number matches no stored order, is answered `FAIL` with the store entirely
unchanged. -/
theorem C5_ok (key : String) (now : Nat) (body : CallbackBody) (s : Store)
    (h : body.sign ≠ JVal.str (calculateSign
        [("out_trade_no", body.out_trade_no), ("transaction_id", body.transaction_id),
         ("total_fee", body.total_fee)] key)
      ∨ s.orders.find? (fun o => body.out_trade_no.eqStr o.outTradeNo) = none) :
    handlePaymentCallback key now body s = ("FAIL", s) := by
  rcases h with h | h
  · exact handle_badSign key now body s h
  · exact handle_noOrder key now body s h

/-- Claim C5 witness: the theorem applied to the concrete body with a
tampered signature field. -/
theorem C5_witness :
    (demoBodyBadSign.sign ≠ JVal.str (calculateSign
        [("out_trade_no", demoBodyBadSign.out_trade_no),
         ("transaction_id", demoBodyBadSign.transaction_id),
         ("total_fee", demoBodyBadSign.total_fee)] "k")
      ∨ demoStore.orders.find?
          (fun o => demoBodyBadSign.out_trade_no.eqStr o.outTradeNo) = none) ∧
    handlePaymentCallback "k" 5 demoBodyBadSign demoStore = ("FAIL", demoStore) :=
  ⟨Or.inl (by simp [demoBodyBadSign, demoBody]),
   C5_ok "k" 5 demoBodyBadSign demoStore
     (Or.inl (by simp [demoBodyBadSign, demoBody]))⟩

/-- Claim C6 counterexample: an attachment that parses to `{}` (valid JSON
but missing both required fields) is NOT rejected by a decode check — the
handler proceeds, mutates the pending order to `paid`, and answers with
the success token. This refutes the claim that a parseable attachment
missing a required field yields Rejected with the order untouched. -/
theorem C6_counterexample :
    (handlePaymentCallback "k" 5 demoBodyEmptyAttach demoStoreNoUser).1 ≠ "FAIL" ∧
    (handlePaymentCallback "k" 5 demoBodyEmptyAttach demoStoreNoUser).2.orders.map
        Order.status = ["paid"] ∧
    demoStoreNoUser.orders.map Order.status = ["pending"] :=
  ⟨by decide, by decide, rfl⟩

/-- Claim C6 (amended): an attachment string that is not valid JSON — or
one that parses to JSON `null`, making the field destructuring throw —
makes the handler return the failure token with the store (in particular
the matched order) untouched; an attachment that parses to an object
missing `userId` or `productType` is NOT rejected at the decode step: the
handler proceeds with those fields absent. -/
theorem C6_ok (key : String) (now : Nat) (body : CallbackBody) (s : Store)
    (h : body.attach = none ∨ body.attach = some JVal.null) :
    handlePaymentCallback key now body s = ("FAIL", s) := by
  rcases h with h | h
  · exact handle_attachNone key now body s h
  · exact handle_nullish key now body s h rfl

/-- Claim C6 witness: the amended theorem applied to the concrete body with
an unparseable attachment. -/
theorem C6_witness :
    (demoBodyNoAttach.attach = none ∨ demoBodyNoAttach.attach = some JVal.null) ∧
    handlePaymentCallback "k" 5 demoBodyNoAttach demoStore = ("FAIL", demoStore) :=
  ⟨Or.inl rfl, C6_ok "k" 5 demoBodyNoAttach demoStore (Or.inl rfl)⟩

/-- Claim C7: across any sequence of callback deliveries, every stored
order either stays exactly as it was at any earlier point or undergoes the
single `pending → paid` mutation (`markPaid`, which writes `status`,
`transactionId` and `paidAt` together, exactly once — a `paid`, `cancelled`
or `expired` status is never overwritten); and the invariant that
`transactionId` and `paidAt` are set if and only if `status = "paid"` is
preserved from the initial store. -/
theorem C7_ok (key : String) (reqs : List (CallbackBody × Nat)) (s : Store)
    (hinv : ∀ o ∈ s.orders, OrderConsistent o) :
    (∀ r1 r2, reqs = r1 ++ r2 →
      List.Forall₂ OrderEvolves (runCallbacks key r1 s).orders
        (runCallbacks key reqs s).orders) ∧
    ∀ o ∈ (runCallbacks key reqs s).orders, OrderConsistent o := by
  constructor
  · intro r1 r2 hsplit
    subst hsplit
    rw [run_append]
    exact run_evolves key r2 _
  · exact forall₂_consistent (run_evolves key reqs s) hinv

/-- Claim C7 witness: the invariant theorem applied to the concrete store
and a one-delivery sequence. -/
theorem C7_witness :
    (∀ o ∈ demoStore.orders, OrderConsistent o) ∧
    ((∀ r1 r2, [(demoBody, 5)] = r1 ++ r2 →
      List.Forall₂ OrderEvolves (runCallbacks "k" r1 demoStore).orders
        (runCallbacks "k" [(demoBody, 5)] demoStore).orders) ∧
     ∀ o ∈ (runCallbacks "k" [(demoBody, 5)] demoStore).orders, OrderConsistent o) :=
  ⟨by decide, C7_ok "k" [(demoBody, 5)] demoStore (by decide)⟩

/-- Claim C8: whenever the handler performs the `pending → paid` transition
and a user record exists for the decoded `userId`, the committed user
record has `vipType` set to the decoded `productType`, `vipPurchaseTime`
set to the current time, `vipExpireTime` nulled when the product is the
non-expiring `lifetime` grant, and `vipOrderIds` equal to the old sequence
with exactly the order's id appended; on every other path the user table is
unchanged. -/
theorem C8_ok (key : String) (now : Nat) (body : CallbackBody) (s : Store) :
    (∀ j order u,
      body.sign = JVal.str (calculateSign
        [("out_trade_no", body.out_trade_no), ("transaction_id", body.transaction_id),
         ("total_fee", body.total_fee)] key) →
      body.attach = some j → j.isNullish = false →
      s.orders.find? (fun o => body.out_trade_no.eqStr o.outTradeNo) = some order →
      order.status = "pending" →
      findUser s.users (getField j "userId") = some u →
      findUser (handlePaymentCallback key now body s).2.users (getField j "userId")
          = some (grantVip u (getField j "productType") now order.id) ∧
        (grantVip u (getField j "productType") now order.id).vipType
          = some (getField j "productType") ∧
        (grantVip u (getField j "productType") now order.id).vipPurchaseTime
          = some now ∧
        (getField j "productType" = JVal.str "lifetime" →
          (grantVip u (getField j "productType") now order.id).vipExpireTime
            = some JVal.null) ∧
        (grantVip u (getField j "productType") now order.id).vipOrderIds
          = some (u.vipOrderIds.getD [] ++ [order.id])) ∧
    (¬ GrantPath key body s →
      (handlePaymentCallback key now body s).2.users = s.users) := by
  constructor
  · intro j order u hsign hatt hj hord hpend huser
    rw [handle_grant key now body s hsign hatt hj hord hpend huser]
    refine ⟨?_, grantVip_vipType u _ now order.id,
      grantVip_vipPurchaseTime u _ now order.id, ?_, rfl⟩
    · exact findUser_updateFirst_grant _ huser (grantVip_id u _ now order.id)
    · intro hpt
      rw [hpt]
      exact grantVip_vipExpireTime_lifetime u now order.id
  · intro hng
    by_cases h2 : body.sign.eqStr (calculateSign
        [("out_trade_no", body.out_trade_no), ("transaction_id", body.transaction_id),
         ("total_fee", body.total_fee)] key) = true
    · have hsign := (eqStr_true_iff _ _).1 h2
      cases hatt : body.attach with
      | none => rw [handle_attachNone key now body s hatt]
      | some j =>
        by_cases hj : j.isNullish = true
        · rw [handle_nullish key now body s hatt hj]
        · have hj2 := bool_eq_false hj
          cases hord : s.orders.find?
              (fun o => body.out_trade_no.eqStr o.outTradeNo) with
          | none => rw [handle_noOrder key now body s hord]
          | some order =>
            by_cases hpaid : order.status = "paid"
            · rw [handle_paid key now body s hsign hatt hj2 hord hpaid]
            · by_cases hpend : order.status = "pending"
              · cases huser : findUser s.users (getField j "userId") with
                | some u =>
                  exact absurd
                    ⟨hsign, j, hatt, hj2, order, hord, hpend, u, huser⟩ hng
                | none => rw [handle_grant_noUser key now body s hsign hatt hj2 hord hpend huser]
              · rw [handle_other key now body s hsign hatt hj2 hord hpaid hpend]
    · rw [handle_badSign key now body s (fun h => h2 ((eqStr_true_iff _ _).2 h))]

/-- Claim C8 witness: the grant conjunct applied at the concrete valid
callback, and the no-mutation conjunct applied at the tampered-signature
callback. -/
theorem C8_witness :
    findUser (handlePaymentCallback "k" 5 demoBody demoStore).2.users
        (getField demoAttach "userId")
      = some (grantVip demoUser (getField demoAttach "productType") 5 demoOrder.id) ∧
    (handlePaymentCallback "k" 5 demoBodyBadSign demoStore).2.users
      = demoStore.users :=
  ⟨((C8_ok "k" 5 demoBody demoStore).1 demoAttach demoOrder demoUser
      rfl rfl rfl rfl rfl rfl).1,
   (C8_ok "k" 5 demoBodyBadSign demoStore).2
     (fun hg => by
       have h1 := hg.1
       simp [demoBodyBadSign, demoBody] at h1)⟩

end LCCF
